import Mathlib

/-!
Formal model of the core of the NBA MVP prediction pipeline: the season
split policy (`NBA_modules.py`), the ranking/inference engine
(`01_xgb_prediction.py`), the feature engineer
(`03_feature_engineering.py`), the cleaner (`02_Main_df_data_cleaning.py`)
and the table merger (`01_Merging_data_to_main_df.py`).

Tables are lists of structure values, one structure per row; numeric
columns are rationals (`ℚ`).  The external gradient-boosted regressor is a
black-box scoring function, as the specification treats it.  Where numpy
floating-point division by zero yields a non-finite value (inf/NaN) rather
than raising, the embedding represents the non-finite result as `none`.
-/

namespace NbaMvp

/-! ## Season split policy (`split_train_val_seasons`, NBA_modules.py) -/

/-- The fixed validation-season literal of `split_train_val_seasons`:
`val_set = {2023, 2021, 2019, 2017, 2015, 2013, 2011, 2009, 2007, 2005}`,
in source order. -/
def fixed_val_set : List ℤ :=
  [2023, 2021, 2019, 2017, 2015, 2013, 2011, 2009, 2007, 2005]

/-- Model of `split_train_val_seasons` (NBA_modules.py lines 38-45).  The
input is the `season_year` column of the loaded CSV;
`set(map(int, data["season_year"].unique()))` is modelled by `dedup`, the
set subtraction `seasons - val_set - {2024}` by a filter, and
`sorted(list(s))` by an insertion sort.  The function returns
`(sorted(list(val_set)), sorted(list(train_set)))`. -/
def split_train_val_seasons (season_col : List ℤ) : List ℤ × List ℤ :=
  let seasons := season_col.dedup
  let train_set := seasons.filter (fun y => decide (y ∉ fixed_val_set) && decide (y ≠ 2024))
  (List.insertionSort (· ≤ ·) fixed_val_set, List.insertionSort (· ≤ ·) train_set)

/-! ## Ranking/inference engine (`predict_the_mvp`, 01_xgb_prediction.py) -/

/-- One row of the prediction feature table: identity, the season label and
the numeric feature vector the model consumes. -/
structure PRow where
  player_name : String
  season_year : ℤ
  features : List ℚ
deriving DecidableEq

/-- The result of `predict_the_mvp`: the season rows ranked by predicted
score (each tagged with its original position inside the season slice), and
the top-N rows with their `predicted_probability` column.  A probability is
`none` when the normalization divided by a zero total (numpy returns
non-finite values there instead of raising). -/
structure MvpResult where
  ranked : List (ℕ × PRow × ℚ)
  top_players : List (ℕ × PRow × ℚ × Option ℚ)
deriving DecidableEq

/-- The comparison numpy's argsort performs inside `sort_values`: it reads
the predicted-score column only. -/
def scoreLE (a b : ℕ × PRow × ℚ) : Prop :=
  a.2.2 ≤ b.2.2

instance : DecidableRel scoreLE := fun a b =>
  inferInstanceAs (Decidable (a.2.2 ≤ b.2.2))

instance : IsTotal (ℕ × PRow × ℚ) scoreLE where
  total a b := le_total a.2.2 b.2.2

instance : IsTrans (ℕ × PRow × ℚ) scoreLE where
  trans _ _ _ hab hbc := le_trans hab hbc

/-- Model of `sort_values(by='predicted_score', ascending=False)`
(01_xgb_prediction.py line 38): pandas `nargsort` reverses the values and
the positions, takes an ascending argsort of the reversed values, and
reverses the resulting indexer again, so the descending order is the
double reversal of an ascending sort.  numpy's argsort compares the
scores only; its order on equal keys is modelled here as stable (exact
for the stable kinds and for the small-array insertion-sort regime of the
default quicksort; for larger arrays the default quicksort leaves the
equal-key order unspecified, so this embedding fixes one determinization
and no theorem below relies on the order of equal scores). -/
def sortValuesDesc (l : List (ℕ × PRow × ℚ)) : List (ℕ × PRow × ℚ) :=
  (List.insertionSort scoreLE l.reverse).reverse

/-- Division as numpy performs it on these arrays: a zero divisor yields a
non-finite float (inf, or NaN for 0/0), modelled as `none`; otherwise the
exact quotient. -/
def npDiv (a b : ℚ) : Option ℚ :=
  if b = 0 then none else some (a / b)

/-- Rounding to two decimal places with numpy's round-half-to-even tie
rule, as `.round(2)` applies to the probability column. -/
def np_round2 (x : ℚ) : ℚ :=
  let y := x * 100
  let f : ℤ := ⌊y⌋
  let d : ℤ :=
    if y - f < 1 / 2 then f
    else if 1 / 2 < y - f then f + 1
    else if 2 ∣ f then f else f + 1
  (d : ℚ) / 100

/-- The error message of `predict_the_mvp` when the requested season is
absent from the table (01_xgb_prediction.py line 32). -/
def seasonNotFoundMsg (season : ℤ) : String :=
  "Aucune donnée trouvée pour la saison " ++ toString season ++ "."

/-- Model of `predict_the_mvp` (01_xgb_prediction.py lines 15-53).  The
model is the external regressor, a black-box map from a feature vector to
a score (`model.predict(season_data[features])` scores each row).  The
season slice is filtered, an empty slice raises, every row is scored, the
rows are sorted descending by score (pandas reverses a stable ascending
argsort), the top-N rows are taken, and their scores are normalized to
percentages of the top-N total, rounded to two decimals.  The division is
performed unconditionally; a zero top-N total therefore produces
non-finite probabilities (`none`), not an error. -/
def predict_the_mvp (model : List ℚ → ℚ) (dataframe : List PRow) (season : ℤ)
    (top_n : ℕ) : Except String MvpResult :=
  let season_data := dataframe.filter (fun r => r.season_year == season)
  if season_data.isEmpty then
    .error (seasonNotFoundMsg season)
  else
    let scored := season_data.enum.map (fun p => (p.1, p.2, model p.2.features))
    let ranked := sortValuesDesc scored
    let top_players := ranked.take top_n
    let total_top_scores := (top_players.map (fun e => e.2.2)).sum
    let with_prob := top_players.map (fun e =>
      (e.1, e.2.1, e.2.2, (npDiv e.2.2 total_top_scores).map (fun q => np_round2 (q * 100))))
    .ok ⟨ranked, with_prob⟩

/-- The scored season slice before sorting: each row of the season filter,
tagged with its position, with its predicted score. -/
def scoredOf (model : List ℚ → ℚ) (dataframe : List PRow) (season : ℤ) :
    List (ℕ × PRow × ℚ) :=
  ((dataframe.filter (fun r => r.season_year == season)).enum).map
    (fun p => (p.1, p.2, model p.2.features))

/-- The ranked rows of a prediction result ([] on error). -/
def rankedOf (x : Except String MvpResult) : List (ℕ × PRow × ℚ) :=
  match x with
  | .ok o => o.ranked
  | .error _ => []

/-- The top-N rows of a prediction result ([] on error). -/
def topOf (x : Except String MvpResult) : List (ℕ × PRow × ℚ × Option ℚ) :=
  match x with
  | .ok o => o.top_players
  | .error _ => []

/-- The predicted scores of the top-N rows. -/
def topScoresOf (x : Except String MvpResult) : List ℚ :=
  (topOf x).map (fun e => e.2.2.1)

/-- The normalized probabilities of the top-N rows. -/
def topProbsOf (x : Except String MvpResult) : List (Option ℚ) :=
  (topOf x).map (fun e => e.2.2.2)

/-! ## Feature engineer (`engineering`, 03_feature_engineering.py) -/

/-- One row of the cleaned table as `team_standing` sees it: the two group
keys and the team's win percentage (the conference is 0/1-encoded by the
cleaning stage). -/
structure TeamRow where
  season_year : ℤ
  conf : ℤ
  win_pct : ℚ
deriving DecidableEq

/-- The distinct `win_pct` values of the (season_year, conf) group of `r`
in table `t`: the values `rank(method="dense")` numbers within the group of
`r`. -/
def groupVals (t : List TeamRow) (r : TeamRow) : Finset ℚ :=
  ((t.filter (fun s => s.season_year == r.season_year && s.conf == r.conf)).map
    (fun s => s.win_pct)).toFinset

/-- Model of the `team_standing` column (03_feature_engineering.py lines
33-35): pandas dense descending rank within each (season_year, conf) group,
which is one plus the number of distinct group values strictly greater than
the row's own `win_pct`. -/
def team_standing (t : List TeamRow) (r : TeamRow) : ℕ :=
  1 + ((groupVals t r).filter (fun v => r.win_pct < v)).card

/-- The `team_standing` column over a whole table, aligned with its rows. -/
def addTeamStanding (t : List TeamRow) : List ℕ :=
  t.map (team_standing t)

/-- The fixed `stats_to_avg` list of 03_feature_engineering.py
(lines 38-41). -/
def stats_to_avg : List String :=
  ["field_goal_made", "field_goal_attempts", "three_points_made",
   "three_points_attempts", "two_points_made", "two_points_attempts",
   "free_throws_made", "free_throws_attempts", "offensive_rebonds",
   "defensive_rebonds", "total_rebonds", "assists", "steals", "blocks",
   "turnovers", "personal_fouls", "total_points"]

/-- One row of the cleaned table as the per-game step sees it: the game
count and the counting-statistic columns, addressed by column name. -/
structure EngRow where
  game_played : ℚ
  stat : String → ℚ

/-- Model of
`(df_final[stat] / df_final['game_played'].replace(0, np.nan)).fillna(0)`
(03_feature_engineering.py line 44): a zero game count is replaced by NaN,
dividing by NaN gives NaN, and `fillna(0)` turns the NaN into 0; a nonzero
game count gives the plain quotient. -/
def per_game_value (r : EngRow) (s : String) : ℚ :=
  if r.game_played = 0 then 0 else r.stat s / r.game_played

/-- The derived `{stat}_per_game` columns of one row, one per entry of
`stats_to_avg`. -/
def perGameFeatures (r : EngRow) : List (String × ℚ) :=
  stats_to_avg.map (fun s => (s ++ "_per_game", per_game_value r s))

/-! ## Cleaner (`clean_data`, 02_Main_df_data_cleaning.py) -/

/-- One raw row as the cleaning steps the zero-guard claim concerns see it:
identity and team (for the drop steps) and the four shooting splits, each
an attempt count and a possibly-missing scraped percentage.  The
conference/position encodings, the column reordering and the 0-100 advanced
rate rescaling act on disjoint columns and are omitted. -/
structure RawRow where
  player_name : String
  team : String
  field_goal_attempts : ℚ
  field_goal_percentage : Option ℚ
  three_points_attempts : ℚ
  three_points_percentage : Option ℚ
  two_points_attempts : ℚ
  two_points_percentage : Option ℚ
  free_throws_attempts : ℚ
  free_throws_percentage : Option ℚ
deriving DecidableEq

/-- One cleaned row: all four percentages are filled (imputed where they
were missing); the `team` column is dropped by the cleaner. -/
structure CleanRow where
  player_name : String
  field_goal_attempts : ℚ
  field_goal_percentage : ℚ
  three_points_attempts : ℚ
  three_points_percentage : ℚ
  two_points_attempts : ℚ
  two_points_percentage : ℚ
  free_throws_attempts : ℚ
  free_throws_percentage : ℚ
deriving DecidableEq

/-- The multi-team aggregate codes dropped by the cleaner (line 45). -/
def multiple_teams : List String :=
  ["2TM", "3TM", "4TM", "5TM"]

/-- The two row-drop steps of `clean_data` (lines 42-46): league-average
rows and multi-team aggregate rows. -/
def dropAggregateRows (df : List RawRow) : List RawRow :=
  (df.filter (fun r => !(r.player_name == "League Average"))).filter
    (fun r => !(multiple_teams.contains r.team))

/-- The division-by-zero guard of `clean_data` (lines 93-95): where an
attempt count is exactly 0, the corresponding percentage is set to 0.  The
code guards the three-point, two-point and free-throw splits; the
field-goal split has no guard line. -/
def zeroGuard (r : RawRow) : RawRow :=
  { r with
    three_points_percentage :=
      if r.three_points_attempts = 0 then some 0 else r.three_points_percentage
    two_points_percentage :=
      if r.two_points_attempts = 0 then some 0 else r.two_points_percentage
    free_throws_percentage :=
      if r.free_throws_attempts = 0 then some 0 else r.free_throws_percentage }

/-- The median of a list of rationals as numpy computes it for
`SimpleImputer(strategy="median")`: the middle of the sorted values, or the
mean of the two middles for an even count (0 for an empty column). -/
def median (l : List ℚ) : ℚ :=
  let s := List.insertionSort (· ≤ ·) l
  if l.length = 0 then 0
  else if l.length % 2 = 1 then s.getD (l.length / 2) 0
  else (s.getD (l.length / 2 - 1) 0 + s.getD (l.length / 2) 0) / 2

/-- Model of `clean_data` (02_Main_df_data_cleaning.py lines 37-112)
restricted to the columns the zero-guard concerns: drop the aggregate rows,
apply the zero-guard, then impute every still-missing percentage with its
column's median over the whole table (lines 101-103), in that order. -/
def clean_data (df : List RawRow) : List CleanRow :=
  let kept := (dropAggregateRows df).map zeroGuard
  let fgMed := median (kept.filterMap (fun r => r.field_goal_percentage))
  let tpMed := median (kept.filterMap (fun r => r.three_points_percentage))
  let twMed := median (kept.filterMap (fun r => r.two_points_percentage))
  let ftMed := median (kept.filterMap (fun r => r.free_throws_percentage))
  kept.map (fun r =>
    { player_name := r.player_name
      field_goal_attempts := r.field_goal_attempts
      field_goal_percentage := r.field_goal_percentage.getD fgMed
      three_points_attempts := r.three_points_attempts
      three_points_percentage := r.three_points_percentage.getD tpMed
      two_points_attempts := r.two_points_attempts
      two_points_percentage := r.two_points_percentage.getD twMed
      free_throws_attempts := r.free_throws_attempts
      free_throws_percentage := r.free_throws_percentage.getD ftMed })

/-! ## Table merger (`main_dataframe`, 01_Merging_data_to_main_df.py) -/

/-- The `team_name_to_abbr` dictionary literal (lines 40-81), as the source
writes it: an ordered list of (full name, code) pairs.  The key
"Charlotte Hornets" appears twice, first with "CHO" and later with
"CHH". -/
def team_name_to_abbr_entries : List (String × String) :=
  [("Atlanta Hawks", "ATL"),
   ("Boston Celtics", "BOS"),
   ("Brooklyn Nets", "BRK"),
   ("Chicago Bulls", "CHI"),
   ("Charlotte Hornets", "CHO"),
   ("Cleveland Cavaliers", "CLE"),
   ("Dallas Mavericks", "DAL"),
   ("Denver Nuggets", "DEN"),
   ("Detroit Pistons", "DET"),
   ("Golden State Warriors", "GSW"),
   ("Houston Rockets", "HOU"),
   ("Indiana Pacers", "IND"),
   ("Los Angeles Clippers", "LAC"),
   ("Los Angeles Lakers", "LAL"),
   ("Memphis Grizzlies", "MEM"),
   ("Miami Heat", "MIA"),
   ("Milwaukee Bucks", "MIL"),
   ("Minnesota Timberwolves", "MIN"),
   ("New Orleans Pelicans", "NOP"),
   ("New York Knicks", "NYK"),
   ("Oklahoma City Thunder", "OKC"),
   ("Orlando Magic", "ORL"),
   ("Philadelphia 76ers", "PHI"),
   ("Phoenix Suns", "PHO"),
   ("Portland Trail Blazers", "POR"),
   ("Sacramento Kings", "SAC"),
   ("San Antonio Spurs", "SAS"),
   ("Toronto Raptors", "TOR"),
   ("Utah Jazz", "UTA"),
   ("Washington Wizards", "WAS"),
   ("Charlotte Bobcats", "CHA"),
   ("Kansas City Kings", "KCK"),
   ("New Jersey Nets", "NJN"),
   ("San Diego Clippers", "SDC"),
   ("Seattle SuperSonics", "SEA"),
   ("Washington Bullets", "WSB"),
   ("Vancouver Grizzlies", "VAN"),
   ("New Orleans Hornets", "NOH"),
   ("Charlotte Hornets", "CHH"),
   ("New Orleans/Oklahoma City Hornets", "NOK")]

/-- A Python dict literal built from an ordered entry list: a later entry
with the same key overwrites an earlier one, so lookup reads the entries
from the back. -/
def pyDictLookup (entries : List (String × String)) (k : String) : Option String :=
  entries.reverse.lookup k

/-- The effective `team_name_to_abbr` mapping, including `.map`'s behavior
of producing a missing value (`none`) for names outside the dictionary. -/
def team_name_to_abbr (name : String) : Option String :=
  pyDictLookup team_name_to_abbr_entries name

/-- One raw standings row: full team name, season, conference letter and
win percentage. -/
structure StandRow where
  team : String
  season_year : ℤ
  conf : String
  win_pct : ℚ
deriving DecidableEq

/-- A standings row after `df_ranking["team"].map(team_name_to_abbr)`:
the team is now a short code, or missing when the name was not in the
dictionary. -/
structure CanonStandRow where
  team : Option String
  season_year : ℤ
  conf : String
  win_pct : ℚ
deriving DecidableEq

/-- Model of the canonicalization step (line 86). -/
def canonicalize (df_ranking : List StandRow) : List CanonStandRow :=
  df_ranking.map (fun s => ⟨team_name_to_abbr s.team, s.season_year, s.conf, s.win_pct⟩)

/-- One totals row: the join keys and the statistic payload. -/
structure TotRow where
  player_name : String
  team : String
  season_year : ℤ
  stats : List ℚ
deriving DecidableEq

/-- One advanced-metric row: the join keys and the metric payload. -/
structure AdvRow where
  player_name : String
  team : String
  season_year : ℤ
  adv_stats : List ℚ
deriving DecidableEq

/-- One merged row: the originating totals row, the team context brought
in by the standings join (`none` when no standing matched) and the
advanced payload brought in by the advanced join (`none` when no advanced
row matched). -/
structure MergedRow where
  tot : TotRow
  team_context : Option (String × ℚ)
  adv : Option (List ℚ)
deriving DecidableEq

/-- The standings rows matching a totals row's (team, season) key. -/
def standingMatches (stand : List CanonStandRow) (t : TotRow) : List CanonStandRow :=
  stand.filter (fun s => s.team == some t.team && s.season_year == t.season_year)

/-- The left join of one totals row with the canonicalized standings
(`pd.merge(..., on=['team', 'season_year'], how='left')`, line 90): a row
with no match is kept with missing team context; a row with matches is
repeated once per match. -/
def joinStanding (stand : List CanonStandRow) (t : TotRow) : List MergedRow :=
  let ms := standingMatches stand t
  if ms.isEmpty then [⟨t, none, none⟩]
  else ms.map (fun s => ⟨t, some (s.conf, s.win_pct), none⟩)

/-- The advanced rows matching a totals row's (player, team, season) key. -/
def advancedMatches (df_advanced : List AdvRow) (t : TotRow) : List AdvRow :=
  df_advanced.filter (fun a =>
    a.player_name == t.player_name && a.team == t.team
      && a.season_year == t.season_year)

/-- The left join of one merged row with the advanced table
(`pd.merge(..., on=['player_name', 'team', 'season_year'], how='left')`,
line 94). -/
def joinAdvanced (df_advanced : List AdvRow) (m : MergedRow) : List MergedRow :=
  let ms := advancedMatches df_advanced m.tot
  if ms.isEmpty then [{ m with adv := none }]
  else ms.map (fun a => { m with adv := some a.adv_stats })

/-- Model of `main_dataframe`'s merging (lines 83-94): canonicalize the
standings, left-join the totals with them on (team, season), then
left-join the result with the advanced table on (player, team, season).
The projection onto the final column list keeps one row per merged row and
is omitted. -/
def main_dataframe (df_ranking : List StandRow) (df_players : List TotRow)
    (df_advanced : List AdvRow) : List MergedRow :=
  (df_players.flatMap (joinStanding (canonicalize df_ranking))).flatMap
    (joinAdvanced df_advanced)

/-! ## Concrete tables used by the examples -/

/-- First row of the toy three-player season: model score 0.8. -/
def toyP1 : PRow := ⟨"P1", 2024, [4/5]⟩

/-- Second row of the toy three-player season: model score 0.5. -/
def toyP2 : PRow := ⟨"P2", 2024, [1/2]⟩

/-- Third row of the toy three-player season: model score 0.1. -/
def toyP3 : PRow := ⟨"P3", 2024, [1/10]⟩

/-- The toy three-player season of the normalization example: the model
reads the row's single feature, so the scores are 0.8, 0.5, 0.1. -/
def toySeason : List PRow := [toyP1, toyP2, toyP3]

/-- First row of the season on which the model predicts 0 everywhere. -/
def zeroZ1 : PRow := ⟨"Z1", 2024, []⟩

/-- Second row of the season on which the model predicts 0 everywhere. -/
def zeroZ2 : PRow := ⟨"Z2", 2024, []⟩

/-- A two-row season on which the model predicts 0 for every row, so the
top-N score total is 0. -/
def zeroSeason : List PRow := [zeroZ1, zeroZ2]

/-- A raw row with zero three-point attempts and a nonzero scraped
three-point percentage. -/
def rawZeroThree : RawRow :=
  ⟨"Some Player", "LAL", 7, some 1, 0, some 1, 7, some 1, 2, some 1⟩

/-- A raw row with zero field-goal attempts and a nonzero scraped
field-goal percentage; the other attempt counts are nonzero. -/
def rawZeroFg : RawRow :=
  ⟨"Bench Player", "BOS", 0, some 1, 3, some 1, 4, some 1, 2, some 1⟩

/-! ## Season split policy: theorems (C1) -/

/-- C1 counterexample: with available seasons {2006}, the returned
validation list contains 2005, a season that is not available, so the
validation list is not the sorted intersection of the fixed odd years with
the available seasons (that intersection is empty here). -/
theorem split_train_val_seasons_cex :
    (2005 : ℤ) ∈ (split_train_val_seasons [2006]).1 ∧
      (2005 : ℤ) ∉ ([2006] : List ℤ) := by
  decide

/-- C1 amended: for every `season_year` column, `split_train_val_seasons`
returns (validation, training) with validation equal to the fixed sorted
list [2005, 2007, ..., 2023] regardless of which seasons are available,
training equal to the sorted set of available seasons excluding the fixed
validation years and 2024, validation and training disjoint, and 2024 in
neither list. -/
theorem split_train_val_seasons_amended (season_col : List ℤ) :
    (split_train_val_seasons season_col).1
        = [2005, 2007, 2009, 2011, 2013, 2015, 2017, 2019, 2021, 2023] ∧
    (∀ y : ℤ, y ∈ (split_train_val_seasons season_col).2 ↔
        y ∈ season_col ∧ y ∉ fixed_val_set ∧ y ≠ 2024) ∧
    List.Sorted (· ≤ ·) (split_train_val_seasons season_col).2 ∧
    (split_train_val_seasons season_col).2.Nodup ∧
    (∀ y ∈ (split_train_val_seasons season_col).2,
        y ∉ (split_train_val_seasons season_col).1) ∧
    (2024 : ℤ) ∉ (split_train_val_seasons season_col).1 ∧
    (2024 : ℤ) ∉ (split_train_val_seasons season_col).2 := by
  have hmem : ∀ y : ℤ, y ∈ (split_train_val_seasons season_col).2 ↔
      y ∈ season_col ∧ y ∉ fixed_val_set ∧ y ≠ 2024 := by
    intro y
    simp [split_train_val_seasons, List.mem_insertionSort, List.mem_filter,
      List.mem_dedup, and_assoc]
  have h1 : (split_train_val_seasons season_col).1
      = List.insertionSort (· ≤ ·) fixed_val_set := rfl
  refine ⟨by rw [h1]; decide, hmem, ?_, ?_, ?_, by rw [h1]; decide, ?_⟩
  · exact List.sorted_insertionSort _ _
  · exact ((List.perm_insertionSort _ _).nodup_iff).2
      (List.Nodup.filter _ (List.nodup_dedup _))
  · intro y hy hymem1
    have h := (hmem y).1 hy
    have hyfix : y ∈ fixed_val_set := by
      have : y ∈ List.insertionSort (· ≤ ·) fixed_val_set := by
        simpa [split_train_val_seasons] using hymem1
      exact (List.mem_insertionSort _).1 this
    exact h.2.1 hyfix
  · intro h2024
    exact ((hmem 2024).1 h2024).2.2 rfl

/-! ## Entity resolver: theorems (C10) -/

/-- A successful association-list lookup returns a pair of the list. -/
theorem lookup_mem :
    ∀ {l : List (String × String)} {k v : String},
      l.lookup k = some v → (k, v) ∈ l := by
  intro l
  induction l with
  | nil => intro k v h; simp [List.lookup] at h
  | cons p l ih =>
    intro k v h
    obtain ⟨a, b⟩ := p
    by_cases hk : k = a
    · subst hk
      simp [List.lookup] at h
      simp [h]
    · have hk' : (k == a) = false := by simp [hk]
      simp [List.lookup, hk'] at h
      exact List.mem_cons_of_mem _ (ih h)

/-- C10 (confirmed): the registry literal lists the key "Charlotte
Hornets" twice, mapped to "CHO" and then to "CHH"; Python dict semantics
keep the later entry, so the effective mapping sends "Charlotte Hornets"
to "CHH" for every input, the code "CHO" is never produced for any name,
and no canonicalized standings row carries the code "CHO". -/
theorem team_name_to_abbr_duplicate_key :
    ((team_name_to_abbr_entries.filter (fun p => p.1 == "Charlotte Hornets")).map
        (fun p => p.2) = ["CHO", "CHH"]) ∧
    team_name_to_abbr "Charlotte Hornets" = some "CHH" ∧
    (∀ name : String, team_name_to_abbr name ≠ some "CHO") ∧
    (∀ df_ranking : List StandRow, ∀ c ∈ canonicalize df_ranking,
        c.team ≠ some "CHO") := by
  have honly : ∀ p ∈ team_name_to_abbr_entries,
      p.2 = "CHO" → p.1 = "Charlotte Hornets" := by decide
  have hch : team_name_to_abbr "Charlotte Hornets" = some "CHH" := by decide
  have hno : ∀ name : String, team_name_to_abbr name ≠ some "CHO" := by
    intro name h
    have hmem : (name, "CHO") ∈ team_name_to_abbr_entries :=
      (List.mem_reverse).1 (lookup_mem h)
    have hname := honly _ hmem rfl
    rw [show ((name, "CHO") : String × String).1 = name from rfl] at hname
    subst hname
    rw [hch] at h
    exact (by decide : ("CHH" : String) ≠ "CHO") (Option.some.inj h)
  refine ⟨by decide, hch, hno, ?_⟩
  intro dfr c hc h
  obtain ⟨s, _, rfl⟩ := List.mem_map.1 hc
  exact hno s.team h

/-! ## Ranking engine: theorems (C2-C5) -/

/-- The empty-season test of `predict_the_mvp`, as a statement about the
rows of the input table. -/
theorem season_filter_isEmpty_iff (dataframe : List PRow) (season : ℤ) :
    (dataframe.filter (fun r => r.season_year == season)).isEmpty = true ↔
      ∀ r ∈ dataframe, r.season_year ≠ season := by
  simp [List.isEmpty_iff, List.filter_eq_nil_iff]

/-- Unfolding of the ranked output of `predict_the_mvp`. -/
theorem rankedOf_predict (model : List ℚ → ℚ) (dataframe : List PRow)
    (season : ℤ) (top_n : ℕ) :
    rankedOf (predict_the_mvp model dataframe season top_n)
      = if (dataframe.filter (fun r => r.season_year == season)).isEmpty
        then [] else sortValuesDesc (scoredOf model dataframe season) := by
  by_cases h : (dataframe.filter (fun r => r.season_year == season)).isEmpty = true
  · simp only [predict_the_mvp]
    rw [if_pos h, if_pos h]
    rfl
  · simp only [predict_the_mvp]
    rw [if_neg h, if_neg h]
    rfl

/-- C5 (confirmed): `predict_the_mvp` raises the descriptive
season-not-found error exactly when no row of the table carries the
requested `season_year`, and returns a result exactly when some row
does; an absent season never yields a silent empty result. -/
theorem predict_the_mvp_season_not_found (model : List ℚ → ℚ)
    (dataframe : List PRow) (season : ℤ) (top_n : ℕ) :
    (predict_the_mvp model dataframe season top_n
        = .error (seasonNotFoundMsg season) ↔
      ∀ r ∈ dataframe, r.season_year ≠ season) ∧
    ((∃ o, predict_the_mvp model dataframe season top_n = .ok o) ↔
      ∃ r ∈ dataframe, r.season_year = season) := by
  by_cases h : (dataframe.filter (fun r => r.season_year == season)).isEmpty = true
  · have hp : predict_the_mvp model dataframe season top_n
        = .error (seasonNotFoundMsg season) := by
      simp only [predict_the_mvp]
      rw [if_pos h]
    refine ⟨⟨fun _ => (season_filter_isEmpty_iff dataframe season).1 h, fun _ => hp⟩, ?_⟩
    constructor
    · rintro ⟨o, ho⟩
      rw [hp] at ho
      exact absurd ho (by simp)
    · rintro ⟨r, hr, hrs⟩
      exact absurd hrs ((season_filter_isEmpty_iff dataframe season).1 h r hr)
  · have hp : ∃ o, predict_the_mvp model dataframe season top_n = .ok o := by
      simp only [predict_the_mvp]
      rw [if_neg h]
      exact ⟨_, rfl⟩
    obtain ⟨o, ho⟩ := hp
    have hne : ∃ r ∈ dataframe, r.season_year = season := by
      by_contra hc
      push_neg at hc
      exact h ((season_filter_isEmpty_iff dataframe season).2 hc)
    refine ⟨⟨fun he => ?_, fun hall =>
        absurd ((season_filter_isEmpty_iff dataframe season).2 hall) h⟩,
      ⟨fun _ => hne, fun _ => ⟨o, ho⟩⟩⟩
    rw [ho] at he
    exact absurd he (by simp)

/-- Unfolding of the top-N output of `predict_the_mvp`. -/
theorem topOf_predict (model : List ℚ → ℚ) (dataframe : List PRow)
    (season : ℤ) (top_n : ℕ) :
    topOf (predict_the_mvp model dataframe season top_n)
      = if (dataframe.filter (fun r => r.season_year == season)).isEmpty
        then []
        else
          ((sortValuesDesc (scoredOf model dataframe season)).take top_n).map (fun e =>
            (e.1, e.2.1, e.2.2, (npDiv e.2.2
              ((((sortValuesDesc (scoredOf model dataframe season)).take top_n).map
                (fun e => e.2.2)).sum)).map (fun q => np_round2 (q * 100)))) := by
  by_cases h : (dataframe.filter (fun r => r.season_year == season)).isEmpty = true
  · simp only [predict_the_mvp]
    rw [if_pos h, if_pos h]
    rfl
  · simp only [predict_the_mvp]
    rw [if_neg h, if_neg h]
    rfl

/-- The numpy division model on a nonzero divisor. -/
theorem npDiv_of_ne (a b : ℚ) (h : b ≠ 0) : npDiv a b = some (a / b) := by
  rw [npDiv, if_neg h]

/-- Evaluation of `np_round2` when the fractional part is below one half. -/
theorem np_round2_down (x : ℚ) (n : ℤ) (h1 : (n : ℚ) ≤ x * 100)
    (h2 : x * 100 - n < 1 / 2) : np_round2 x = (n : ℚ) / 100 := by
  have hfl : ⌊x * 100⌋ = n := by
    rw [Int.floor_eq_iff]
    exact ⟨h1, by linarith⟩
  simp only [np_round2, hfl]
  rw [if_pos h2]

/-- Evaluation of `np_round2` when the fractional part is above one half. -/
theorem np_round2_up (x : ℚ) (n : ℤ) (h1 : (n : ℚ) ≤ x * 100)
    (h2 : 1 / 2 < x * 100 - n) (h3 : x * 100 < (n : ℚ) + 1) :
    np_round2 x = ((n : ℚ) + 1) / 100 := by
  have hfl : ⌊x * 100⌋ = n := by
    rw [Int.floor_eq_iff]
    exact ⟨h1, h3⟩
  simp only [np_round2, hfl]
  rw [if_neg (by linarith), if_pos h2]
  norm_num

/-- C2 (confirmed): in the normalized display mode each top-N score is
converted to `score / (sum of the top-N scores) * 100`, rounded to two
decimals, over the top-N subset only; on the toy three-player season with
scores [0.8, 0.5, 0.1] and top_n = 2 the probabilities are
[61.54, 38.46] and no error is raised. -/
theorem predict_the_mvp_normalization :
    (∀ (model : List ℚ → ℚ) (dataframe : List PRow) (season : ℤ) (top_n : ℕ),
      (topScoresOf (predict_the_mvp model dataframe season top_n)).sum ≠ 0 →
      topProbsOf (predict_the_mvp model dataframe season top_n)
        = (topScoresOf (predict_the_mvp model dataframe season top_n)).map
            (fun sc => some (np_round2 (sc /
              (topScoresOf (predict_the_mvp model dataframe season top_n)).sum * 100)))) ∧
    (∃ o, predict_the_mvp (fun f => f.headD 0) toySeason 2024 2 = .ok o) ∧
    topScoresOf (predict_the_mvp (fun f => f.headD 0) toySeason 2024 2) = [4/5, 1/2] ∧
    topProbsOf (predict_the_mvp (fun f => f.headD 0) toySeason 2024 2)
        = [some (6154/100), some (3846/100)] := by
  constructor
  · intro model dataframe season top_n htot
    by_cases h : (dataframe.filter (fun r => r.season_year == season)).isEmpty = true
    · exfalso
      apply htot
      simp [topScoresOf, topOf_predict, h]
    · have htop := topOf_predict model dataframe season top_n
      rw [if_neg h] at htop
      have hscores : topScoresOf (predict_the_mvp model dataframe season top_n)
          = ((sortValuesDesc (scoredOf model dataframe season)).take top_n).map
              (fun e => e.2.2) := by
        rw [topScoresOf, htop, List.map_map]
        rfl
      have hT : ((((sortValuesDesc (scoredOf model dataframe season)).take top_n).map
          (fun e => e.2.2)).sum) ≠ 0 := by
        rw [hscores] at htot
        exact htot
      rw [topProbsOf, htop, hscores, List.map_map, List.map_map]
      congr 1
      funext e
      rw [Function.comp_apply, Function.comp_apply, npDiv_of_ne _ _ hT]
      rfl
  · have hne : ¬ ((toySeason.filter (fun r => r.season_year == (2024:ℤ))).isEmpty = true) := by
      decide
    have hsort : sortValuesDesc (scoredOf (fun f => f.headD 0) toySeason 2024)
        = [(0, toyP1, 4/5), (1, toyP2, 1/2), (2, toyP3, 1/10)] := by
      norm_num [sortValuesDesc, scoredOf, toySeason, toyP1, toyP2, toyP3,
        List.enum, List.enumFrom, List.insertionSort, List.orderedInsert, scoreLE]
    have hr1 : np_round2 ((800 : ℚ)/13) = (3077 : ℚ)/50 := by
      have := np_round2_up ((800 : ℚ)/13) 6153 (by norm_num) (by norm_num) (by norm_num)
      rw [this]
      norm_num
    have hr2 : np_round2 ((500 : ℚ)/13) = (1923 : ℚ)/50 := by
      have := np_round2_down ((500 : ℚ)/13) 3846 (by norm_num) (by norm_num)
      rw [this]
      norm_num
    have htop : topOf (predict_the_mvp (fun f => f.headD 0) toySeason 2024 2)
        = [(0, toyP1, 4/5, some (6154/100)), (1, toyP2, 1/2, some (3846/100))] := by
      rw [topOf_predict, if_neg hne, hsort]
      norm_num [npDiv, hr1, hr2]
    refine ⟨?_, ?_, ?_⟩
    · simp only [predict_the_mvp]
      rw [if_neg hne]
      exact ⟨_, rfl⟩
    · rw [topScoresOf, htop]
      norm_num
    · rw [topProbsOf, htop]
      norm_num

/-- C3 (code_bug evidence): on a season whose rows the model all scores 0,
the top-N score total is 0, yet `predict_the_mvp` returns normally
(`.ok`) and the normalization divides by the zero total anyway, producing
non-finite probability values (`none` in the embedding) instead of
detecting and reporting a degenerate normalization. -/
theorem predict_the_mvp_zero_total_blind :
    (∃ o, predict_the_mvp (fun _ => 0) zeroSeason 2024 2 = .ok o) ∧
    topScoresOf (predict_the_mvp (fun _ => 0) zeroSeason 2024 2) = [0, 0] ∧
    (topScoresOf (predict_the_mvp (fun _ => 0) zeroSeason 2024 2)).sum = 0 ∧
    topProbsOf (predict_the_mvp (fun _ => 0) zeroSeason 2024 2) = [none, none] := by
  have hne : ¬ ((zeroSeason.filter (fun r => r.season_year == (2024:ℤ))).isEmpty = true) := by
    decide
  have hsort : sortValuesDesc (scoredOf (fun _ => 0) zeroSeason 2024)
      = [(0, zeroZ1, 0), (1, zeroZ2, 0)] := by
    norm_num [sortValuesDesc, scoredOf, zeroSeason, zeroZ1, zeroZ2,
      List.enum, List.enumFrom, List.insertionSort, List.orderedInsert, scoreLE]
  have htop : topOf (predict_the_mvp (fun _ => 0) zeroSeason 2024 2)
      = [(0, zeroZ1, 0, none), (1, zeroZ2, 0, none)] := by
    rw [topOf_predict, if_neg hne, hsort]
    norm_num [npDiv]
  refine ⟨?_, ?_, ?_, ?_⟩
  · simp only [predict_the_mvp]
    rw [if_neg hne]
    exact ⟨_, rfl⟩
  · rw [topScoresOf, htop]
    norm_num
  · rw [topScoresOf, htop]
    norm_num
  · rw [topProbsOf, htop]
    norm_num

/-! ## Feature engineer: theorems (C6, C8) -/

/-- The group values of a row are invariant under permutation of the
table. -/
theorem groupVals_perm (t t' : List TeamRow) (h : t.Perm t') (r : TeamRow) :
    groupVals t r = groupVals t' r :=
  List.toFinset_eq_of_perm _ _ ((h.filter _).map _)

/-- The group values of a row depend only on its group keys. -/
theorem groupVals_key_eq (t : List TeamRow) (r s : TeamRow)
    (hy : r.season_year = s.season_year) (hc : r.conf = s.conf) :
    groupVals t r = groupVals t s := by
  unfold groupVals
  rw [hy, hc]

/-- Membership in the group values of a row. -/
theorem mem_groupVals (t : List TeamRow) (r : TeamRow) (v : ℚ) :
    v ∈ groupVals t r ↔
      ∃ u, (u ∈ t ∧ u.season_year = r.season_year ∧ u.conf = r.conf)
        ∧ u.win_pct = v := by
  simp [groupVals, List.mem_filter]

/-- C6 (confirmed): `team_standing` is a pure function of the
(season, conference, win_pct) multiset — invariant under row reordering —
that assigns equal ranks to equal win percentages of a group and dense
no-gap numbering: two group values with nothing strictly between them get
consecutive ranks, and the example win percentages [0.70, 0.70, 0.60] in
one conference-season get ranks [1, 1, 2]. -/
theorem team_standing_dense_rank :
    (∀ (t t' : List TeamRow), t.Perm t' →
      ∀ r, team_standing t r = team_standing t' r) ∧
    (∀ (t : List TeamRow) (r s : TeamRow), r.season_year = s.season_year →
      r.conf = s.conf → r.win_pct = s.win_pct →
      team_standing t r = team_standing t s) ∧
    (∀ (t : List TeamRow) (r s : TeamRow), r ∈ t →
      r.season_year = s.season_year → r.conf = s.conf →
      s.win_pct < r.win_pct →
      (∀ u ∈ t, u.season_year = r.season_year → u.conf = r.conf →
        ¬(s.win_pct < u.win_pct ∧ u.win_pct < r.win_pct)) →
      team_standing t s = team_standing t r + 1) ∧
    addTeamStanding [⟨2020, 0, 70/100⟩, ⟨2020, 0, 70/100⟩, ⟨2020, 0, 60/100⟩]
        = [1, 1, 2] := by
  refine ⟨?_, ?_, ?_, ?_⟩
  · intro t t' h r
    unfold team_standing
    rw [groupVals_perm t t' h r]
  · intro t r s hy hc hw
    unfold team_standing
    rw [groupVals_key_eq t r s hy hc, hw]
  · intro t r s hr hy hc hw hnb
    have hG : groupVals t s = groupVals t r := groupVals_key_eq t s r hy.symm hc.symm
    have hrG : r.win_pct ∈ groupVals t r :=
      (mem_groupVals t r _).2 ⟨r, ⟨hr, rfl, rfl⟩, rfl⟩
    have hins : (groupVals t r).filter (fun v => s.win_pct < v)
        = insert r.win_pct ((groupVals t r).filter (fun v => r.win_pct < v)) := by
      ext v
      simp only [Finset.mem_filter, Finset.mem_insert]
      constructor
      · rintro ⟨hvG, hsv⟩
        rcases lt_trichotomy v r.win_pct with hvr | hvr | hvr
        · exfalso
          obtain ⟨u, ⟨hu, huy, huc⟩, huw⟩ := (mem_groupVals t r v).1 hvG
          exact hnb u hu huy huc ⟨huw.symm ▸ hsv, huw.symm ▸ hvr⟩
        · exact Or.inl hvr
        · exact Or.inr ⟨hvG, hvr⟩
      · rintro (rfl | ⟨hvG, hrv⟩)
        · exact ⟨hrG, hw⟩
        · exact ⟨hvG, hw.trans hrv⟩
    have hnotmem : r.win_pct ∉ (groupVals t r).filter (fun v => r.win_pct < v) := by
      simp
    unfold team_standing
    rw [hG, hins, Finset.card_insert_of_not_mem hnotmem]
    omega
  · norm_num [addTeamStanding, team_standing, groupVals, List.filter,
      Finset.filter_insert, Finset.filter_singleton]

/-- C8 (confirmed): every derived per-game feature of a row with zero
games played equals 0 (never an error value), and for a nonzero game
count each per-game feature is the season total divided by the game
count; the scenario row with `games_played = 0` and `field_goal_made = 10`
yields `field_goal_made_per_game = 0`. -/
theorem per_game_zero_guard :
    (∀ (r : EngRow), r.game_played = 0 → ∀ p ∈ perGameFeatures r, p.2 = 0) ∧
    (∀ (r : EngRow), r.game_played ≠ 0 → ∀ s ∈ stats_to_avg,
      (s ++ "_per_game", r.stat s / r.game_played) ∈ perGameFeatures r) ∧
    (∀ p ∈ perGameFeatures
        ⟨0, fun s => if s == "field_goal_made" then 10 else 0⟩, p.2 = 0) ∧
    ("field_goal_made_per_game", (0 : ℚ)) ∈ perGameFeatures
        ⟨0, fun s => if s == "field_goal_made" then 10 else 0⟩ := by
  refine ⟨?_, ?_, ?_, ?_⟩
  · intro r h0 p hp
    obtain ⟨s, _, rfl⟩ := List.mem_map.1 hp
    simp [per_game_value, h0]
  · intro r h0 s hs
    refine List.mem_map.2 ⟨s, hs, ?_⟩
    simp [per_game_value, h0]
  · decide
  · decide

/-! ## Cleaner: theorems (C7) -/

/-- C7 counterexample: the cleaner's zero-guard does not cover the
field-goal split: a row with `field_goal_attempts = 0` keeps its raw
scraped `field_goal_percentage` (here 1) instead of being forced to 0, so
the guard does not apply to "any" shooting statistic. -/
theorem clean_data_zero_guard_cex :
    (clean_data [rawZeroFg]).map
        (fun c => (c.field_goal_attempts, c.field_goal_percentage))
      = [(0, 1)] ∧ (1 : ℚ) ≠ 0 := by
  decide

/-- C7 amended: for the three guarded shooting splits (three-point,
two-point and free-throw), a zero attempt count forces the cleaned
percentage to exactly 0 regardless of the raw scraped value, the guard
running before the median imputation; the field-goal split is not
guarded.  The concrete row with `three_points_attempts = 0` and raw
percentage 1 comes out with `three_points_percentage = 0`. -/
theorem clean_data_zero_guard_amended :
    (∀ (df : List RawRow), ∀ c ∈ clean_data df,
      (c.three_points_attempts = 0 → c.three_points_percentage = 0) ∧
      (c.two_points_attempts = 0 → c.two_points_percentage = 0) ∧
      (c.free_throws_attempts = 0 → c.free_throws_percentage = 0)) ∧
    (clean_data [rawZeroThree]).map
        (fun c => (c.three_points_attempts, c.three_points_percentage))
      = [(0, 0)] := by
  constructor
  · intro df c hc
    simp only [clean_data, List.mem_map] at hc
    obtain ⟨r, hrk, rfl⟩ := hc
    obtain ⟨r', _, rfl⟩ := hrk
    refine ⟨?_, ?_, ?_⟩ <;> intro h0 <;>
      simp only [zeroGuard] at h0 ⊢ <;> simp [h0]
  · decide

/-! ## Table merger: theorems (C9) -/

/-- Every row produced by the standings join carries the originating
totals row. -/
theorem joinStanding_tot (stand : List CanonStandRow) (t : TotRow) :
    ∀ m ∈ joinStanding stand t, m.tot = t := by
  intro m hm
  simp only [joinStanding] at hm
  by_cases h : (standingMatches stand t).isEmpty = true
  · rw [if_pos h] at hm
    simp at hm
    rw [hm]
  · rw [if_neg h] at hm
    obtain ⟨s, _, rfl⟩ := List.mem_map.1 hm
    rfl

/-- The standings join never drops a totals row. -/
theorem joinStanding_ne_nil (stand : List CanonStandRow) (t : TotRow) :
    joinStanding stand t ≠ [] := by
  simp only [joinStanding]
  by_cases h : (standingMatches stand t).isEmpty = true
  · rw [if_pos h]
    simp
  · rw [if_neg h]
    intro hmap
    exact h (by rw [List.isEmpty_iff, List.map_eq_nil_iff.1 hmap])

/-- The advanced join preserves the totals row and the team context. -/
theorem joinAdvanced_preserves (df_advanced : List AdvRow) (m : MergedRow) :
    ∀ m' ∈ joinAdvanced df_advanced m,
      m'.tot = m.tot ∧ m'.team_context = m.team_context := by
  intro m' hm
  simp only [joinAdvanced] at hm
  by_cases h : (advancedMatches df_advanced m.tot).isEmpty = true
  · rw [if_pos h] at hm
    simp at hm
    rw [hm]
    exact ⟨rfl, rfl⟩
  · rw [if_neg h] at hm
    obtain ⟨a, _, rfl⟩ := List.mem_map.1 hm
    exact ⟨rfl, rfl⟩

/-- The advanced join never drops a row. -/
theorem joinAdvanced_ne_nil (df_advanced : List AdvRow) (m : MergedRow) :
    joinAdvanced df_advanced m ≠ [] := by
  simp only [joinAdvanced]
  by_cases h : (advancedMatches df_advanced m.tot).isEmpty = true
  · rw [if_pos h]
    simp
  · rw [if_neg h]
    intro hmap
    exact h (by rw [List.isEmpty_iff, List.map_eq_nil_iff.1 hmap])

/-- The advanced join of a row whose key matches at most one advanced row
yields exactly that row with some (possibly missing) advanced payload. -/
theorem joinAdvanced_of_le_one (df_advanced : List AdvRow) (m : MergedRow)
    (h : (advancedMatches df_advanced m.tot).length ≤ 1) :
    ∃ aopt, joinAdvanced df_advanced m = [⟨m.tot, m.team_context, aopt⟩] := by
  cases hms : advancedMatches df_advanced m.tot with
  | nil => exact ⟨none, by simp [joinAdvanced, hms]⟩
  | cons a tl =>
    cases tl with
    | nil => exact ⟨some a.adv_stats, by simp [joinAdvanced, hms]⟩
    | cons b tl2 =>
      rw [hms] at h
      simp at h

/-- A key that does not occur in the totals list contributes nothing to
the filtered join output. -/
theorem flatMap_filter_count_zero (F : TotRow → List MergedRow)
    (htot : ∀ x, ∀ m ∈ F x, m.tot = x) (t : TotRow) :
    ∀ l : List TotRow, l.count t = 0 →
      (l.flatMap F).filter (fun m => m.tot == t) = [] := by
  intro l
  induction l with
  | nil => intro _; rfl
  | cons x l ih =>
    intro hc
    rw [List.count_cons] at hc
    by_cases hx : t = x
    · exfalso
      simp [hx] at hc
    · rw [if_neg (by simp [Ne.symm hx]), Nat.add_zero] at hc
      rw [List.flatMap_cons, List.filter_append, ih hc, List.append_nil]
      apply List.filter_eq_nil_iff.2
      intro m hm
      rw [htot x m hm]
      simp [Ne.symm hx]

/-- A key that occurs exactly once in the totals list contributes exactly
its own join rows to the filtered join output. -/
theorem flatMap_filter_count_one (F : TotRow → List MergedRow)
    (htot : ∀ x, ∀ m ∈ F x, m.tot = x) (t : TotRow) :
    ∀ l : List TotRow, l.count t = 1 →
      (l.flatMap F).filter (fun m => m.tot == t) = F t := by
  intro l
  induction l with
  | nil => intro hc; simp at hc
  | cons x l ih =>
    intro hc
    rw [List.count_cons] at hc
    rw [List.flatMap_cons, List.filter_append]
    by_cases hx : t = x
    · subst hx
      rw [if_pos (by simp)] at hc
      have hl0 : l.count t = 0 := by omega
      rw [flatMap_filter_count_zero F htot t l hl0, List.append_nil]
      apply List.filter_eq_self.2
      intro m hm
      simp [htot t m hm]
    · rw [if_neg (by simp [Ne.symm hx]), Nat.add_zero] at hc
      rw [ih hc]
      have hnil : (F x).filter (fun m => m.tot == t) = [] := by
        apply List.filter_eq_nil_iff.2
        intro m hm
        rw [htot x m hm]
        simp [Ne.symm hx]
      rw [hnil, List.nil_append]

/-- A flat map over nonempty images never shortens the list. -/
theorem length_le_flatMap (F : TotRow → List MergedRow)
    (hne : ∀ x, F x ≠ []) :
    ∀ l : List TotRow, l.length ≤ (l.flatMap F).length := by
  intro l
  induction l with
  | nil => simp
  | cons x l ih =>
    rw [List.flatMap_cons, List.length_append, List.length_cons]
    have h1 : 1 ≤ (F x).length := List.length_pos.2 (hne x)
    omega

/-- C9 (confirmed): the merger's joins are left joins: every totals row
appears in the merged output (the output is never shorter than the totals
table); under the data-model uniqueness of the standings and advanced
keys, a totals row whose (team, season) key resolves against the
canonicalized standings yields exactly one merged row with non-null team
context, and a row with no matching standing is kept with null team
context rather than dropped.  The concrete two-player example keeps the
unmatched 1999 row with null context. -/
theorem main_dataframe_left_join (df_ranking : List StandRow)
    (df_players : List TotRow) (df_advanced : List AdvRow) :
    (∀ t ∈ df_players,
      ∃ m ∈ main_dataframe df_ranking df_players df_advanced, m.tot = t) ∧
    df_players.length ≤ (main_dataframe df_ranking df_players df_advanced).length ∧
    (∀ t : TotRow, df_players.count t = 1 →
      (standingMatches (canonicalize df_ranking) t).length ≤ 1 →
      (advancedMatches df_advanced t).length ≤ 1 →
      ((standingMatches (canonicalize df_ranking) t ≠ [] →
        ∃ ctx aopt, (main_dataframe df_ranking df_players df_advanced).filter
            (fun m => m.tot == t) = [⟨t, some ctx, aopt⟩]) ∧
       (standingMatches (canonicalize df_ranking) t = [] →
        ∃ aopt, (main_dataframe df_ranking df_players df_advanced).filter
            (fun m => m.tot == t) = [⟨t, none, aopt⟩]))) ∧
    main_dataframe [⟨"Los Angeles Lakers", 2023, "W", 1⟩]
        [⟨"LeBron James", "LAL", 2023, []⟩, ⟨"Joe Unknown", "XXX", 1999, []⟩]
        [⟨"LeBron James", "LAL", 2023, [5]⟩]
      = [⟨⟨"LeBron James", "LAL", 2023, []⟩, some ("W", 1), some [5]⟩,
         ⟨⟨"Joe Unknown", "XXX", 1999, []⟩, none, none⟩] := by
  have hmain : main_dataframe df_ranking df_players df_advanced
      = df_players.flatMap (fun t =>
          (joinStanding (canonicalize df_ranking) t).flatMap
            (joinAdvanced df_advanced)) := by
    rw [main_dataframe, List.flatMap_assoc]
  set c := canonicalize df_ranking with hcdef
  set F := fun t => (joinStanding c t).flatMap (joinAdvanced df_advanced) with hFdef
  have htot : ∀ x, ∀ m ∈ F x, m.tot = x := by
    intro x m hm
    obtain ⟨m1, hm1, hm2⟩ := List.mem_flatMap.1 hm
    rw [(joinAdvanced_preserves df_advanced m1 m hm2).1, joinStanding_tot c x m1 hm1]
  have hFne : ∀ x, F x ≠ [] := by
    intro x
    cases hJ : joinStanding c x with
    | nil => exact absurd hJ (joinStanding_ne_nil c x)
    | cons m1 tl =>
      show (joinStanding c x).flatMap (joinAdvanced df_advanced) ≠ []
      rw [hJ, List.flatMap_cons]
      intro happ
      exact joinAdvanced_ne_nil df_advanced m1 (List.append_eq_nil.1 happ).1
  refine ⟨?_, ?_, ?_, ?_⟩
  · intro t ht
    cases hFx : F t with
    | nil => exact absurd hFx (hFne t)
    | cons m tl =>
      refine ⟨m, ?_, htot t m (by rw [hFx]; exact List.mem_cons_self m tl)⟩
      rw [hmain]
      exact List.mem_flatMap.2 ⟨t, ht, by rw [hFx]; exact List.mem_cons_self m tl⟩
  · rw [hmain]
    exact length_le_flatMap F hFne df_players
  · intro t hcount hs ha
    have hfilter : (main_dataframe df_ranking df_players df_advanced).filter
        (fun m => m.tot == t) = F t := by
      rw [hmain]
      exact flatMap_filter_count_one F htot t df_players hcount
    constructor
    · intro hres
      cases hms : standingMatches c t with
      | nil => exact absurd hms hres
      | cons s tl =>
        cases tl with
        | cons s2 tl2 =>
          rw [hms] at hs
          simp at hs
        | nil =>
          have hJ : joinStanding c t = [⟨t, some (s.conf, s.win_pct), none⟩] := by
            simp [joinStanding, hms]
          have hFt : F t = joinAdvanced df_advanced ⟨t, some (s.conf, s.win_pct), none⟩ := by
            show (joinStanding c t).flatMap (joinAdvanced df_advanced) = _
            rw [hJ, List.flatMap_cons, List.flatMap_nil, List.append_nil]
          obtain ⟨aopt, hJA⟩ := joinAdvanced_of_le_one df_advanced
            ⟨t, some (s.conf, s.win_pct), none⟩ ha
          exact ⟨(s.conf, s.win_pct), aopt, by rw [hfilter, hFt, hJA]⟩
    · intro hms
      have hJ : joinStanding c t = [⟨t, none, none⟩] := by
        simp [joinStanding, hms]
      have hFt : F t = joinAdvanced df_advanced ⟨t, none, none⟩ := by
        show (joinStanding c t).flatMap (joinAdvanced df_advanced) = _
        rw [hJ, List.flatMap_cons, List.flatMap_nil, List.append_nil]
      obtain ⟨aopt, hJA⟩ := joinAdvanced_of_le_one df_advanced ⟨t, none, none⟩ ha
      exact ⟨aopt, by rw [hfilter, hFt, hJA]⟩
  · decide

end NbaMvp
